import Mathlib

/-!
Verification development for the mttl adapter / modifier / expert-library
code base.  The Python source is shallowly embedded: tensors become total
functions from natural-number indices to exact scalars (float arithmetic is
modelled exactly; dtype bookkeeping is carried explicitly as a tag so that
the casting policy of the code can be stated), stateful modules become
structures threaded explicitly, and fallible operations return `Except`.
-/

/-- Torch dtypes that occur in the embedded code paths.  `i8` stands for
`torch.int8`, which `LoRA.foward_layer` checks for explicitly. -/
inductive DType where
  | f16 : DType
  | f32 : DType
  | i8 : DType
deriving DecidableEq, Repr

/-- Rank of a dtype in the (restricted) torch promotion order used here. -/
def DType.rank : DType → ℕ
  | .i8 => 0
  | .f16 => 1
  | .f32 => 2

/-- Result dtype of a binary tensor operation (torch type promotion,
restricted to the dtypes above: the wider floating type wins). -/
def DType.promote (a b : DType) : DType :=
  if a.rank ≤ b.rank then b else a

/-- A floating dtype (not `int8`). -/
def DType.isFloating : DType → Bool
  | .i8 => false
  | _ => true

/-- Unbounded matrix of exact scalars: entry `(i, j)`.  Entries outside the
logical bounds are junk and never inspected by the embedded operations. -/
def Mat : Type := ℕ → ℕ → ℚ

/-- The all-zeros matrix. -/
def Mat.zero : Mat := fun _ _ => 0

/-- Matrix product with explicit inner dimension `k`. -/
def Mat.mul (k : ℕ) (M N : Mat) : Mat :=
  fun i j => ∑ t ∈ Finset.range k, M i t * N t j

/-- Entrywise sum. -/
def Mat.add (M N : Mat) : Mat := fun i j => M i j + N i j

/-- Entrywise scalar multiple. -/
def Mat.smul (c : ℚ) (M : Mat) : Mat := fun i j => c * M i j

/-- A dtype-tagged matrix: the exact value together with the torch dtype a
real tensor holding it would carry.  Casting between floating dtypes is
modelled as changing the tag only (exact-arithmetic abstraction). -/
structure TM where
  val : Mat
  dt : DType

/-- `tensor.to(d)`: change the dtype tag, keep the (exactly modelled) value. -/
def TM.to (t : TM) (d : DType) : TM := ⟨t.val, d⟩

/-- Tagged matrix multiplication with inner dimension `k`. -/
def TM.mul (k : ℕ) (a b : TM) : TM := ⟨Mat.mul k a.val b.val, a.dt.promote b.dt⟩

/-- Tagged entrywise sum. -/
def TM.add (a b : TM) : TM := ⟨Mat.add a.val b.val, a.dt.promote b.dt⟩

/-- Tagged scalar multiple (dtype unchanged, as for a python scalar). -/
def TM.smul (c : ℚ) (a : TM) : TM := ⟨Mat.smul c a.val, a.dt⟩

/-- `mttl.models.adapters.LoRA`: the live state of one LoRA adapter wrapping
an `nn.Linear` layer, as built by `LoRA.__init__` / `create_for_layer`.
`layerW` is the wrapped layer's weight of logical shape
`(out_features, in_features)`; `layerB` its bias vector.  `training` is the
`nn.Module` training flag; `training_steps` the adapter's step counter. -/
structure LoRA where
  rank : ℕ
  alpha : ℚ
  use_warmup : Bool
  in_features : ℕ
  out_features : ℕ
  lora_a : TM
  lora_b : TM
  training_steps : ℕ
  training : Bool
  layerW : TM
  layerB : ℕ → ℚ

/-- `self.scaling = self.alpha / self.rank`. -/
def LoRA.scaling (m : LoRA) : ℚ := m.alpha / (m.rank : ℚ)

/-- The wrapped `nn.Linear` applied to `input`: `input @ W.T + bias`,
producing a tensor of the layer's dtype (value part). -/
def linearVal (nin : ℕ) (W : Mat) (bias : ℕ → ℚ) (x : Mat) : Mat :=
  fun i j => (∑ t ∈ Finset.range nin, x i t * W j t) + bias j

/-- `LoRA.foward_layer` (sic): downcast the input to the layer dtype unless
the layer is `int8`, apply the wrapped linear layer, cast the result back to
the input dtype. -/
def LoRA.foward_layer (m : LoRA) (input : TM) : TM :=
  let dtype_input := input.dt
  let dtype_layer := m.layerW.dt
  let input :=
    if dtype_input ≠ dtype_layer ∧ dtype_layer ≠ DType.i8 then
      input.to dtype_layer
    else input
  let out : TM := ⟨linearVal m.in_features m.layerW.val m.layerB input.val, input.dt.promote m.layerW.dt⟩
  out.to dtype_input

/-- `min(self.training_steps / 10_000, 1)`: the warm-up gating factor as a
function of the step counter. -/
def warmupFactor (steps : ℕ) : ℚ := min ((steps : ℚ) / 10000) 1

/-- The scaled low-rank correction of `forward_linear_`:
`torch.matmul(torch.matmul(input, self.lora_a), self.lora_b) * self.scaling`
(applied to the already-upcast input). -/
def LoRA.adapter_raw (m : LoRA) (input : TM) : TM :=
  TM.smul m.scaling (TM.mul m.rank (TM.mul m.in_features input m.lora_a) m.lora_b)

/-- All intermediate results of one `LoRA.forward_linear_` call:
the (possibly warm-up-gated) correction, the sum with the wrapped layer's
output before the final downcast, the returned output, and the updated
adapter state. -/
structure LoRATrace where
  adapter_out : TM
  pre_output : TM
  output : TM
  state : LoRA

/-- `LoRA.forward_linear_`, with every intermediate of the source function
recorded: upcast the input to float32, advance the step counter when
training, compute the scaled low-rank correction, gate it by the warm-up
factor when warm-up is enabled, add the wrapped layer's output, and
downcast the result to the caller's dtype. -/
def LoRA.forward_trace (m : LoRA) (input : TM) : LoRATrace :=
  let iput_dt := input.dt
  let input := input.to DType.f32
  let m := if m.training then { m with training_steps := m.training_steps + 1 } else m
  let adapter_out := m.adapter_raw input
  let warmup := warmupFactor m.training_steps
  let adapter_out := if m.use_warmup then TM.smul warmup adapter_out else adapter_out
  let output := TM.add (m.foward_layer input) adapter_out
  ⟨adapter_out, output, output.to iput_dt, m⟩

/-- `LoRA.forward_linear_`: the returned output and updated state of
`forward_trace`. -/
def LoRA.forward_linear_ (m : LoRA) (input : TM) : TM × LoRA :=
  let t := m.forward_trace input
  (t.output, t.state)

/-- `LoRA.reset_parameters`, up-projection part: `lora_b` is drawn from the
uniform distribution (here: an arbitrary externally supplied draw `rand`)
when warm-up or randomized init is requested, and is zero-initialized
otherwise. -/
def LoRA.reset_b (use_warmup init_b_random : Bool) (rand : Mat) : Mat :=
  if use_warmup || init_b_random then rand else Mat.zero

/-! ## SkilledLoRA (`mttl.models.adapters.SkilledLoRA`) -/

/-- Unbounded rank-3 tensor of exact scalars. -/
def Ten3 : Type := ℕ → ℕ → ℕ → ℚ

/-- Unbounded rank-4 tensor of exact scalars. -/
def Ten4 : Type := ℕ → ℕ → ℕ → ℕ → ℚ

/-- `Tensor.transpose(1, 2)` on a rank-4 tensor: swap the second and third
logical axes. -/
def Ten4.transpose12 (T : Ten4) : Ten4 := fun a b c d => T a c b d

/-- `Tensor.reshape` from a rank-4 source of shape `(d1, d2, d3, d4)` to a
rank-3 target of shape `(e1, e2, e3)`: entries are read in row-major
(logical) order and refilled in row-major order.  The leading source
dimension is determined by the flat position, so it is not a parameter. -/
def reshape43 (d2 d3 d4 e2 e3 : ℕ) (T : Ten4) : Ten3 :=
  fun i j k =>
    let p := (i * e2 + j) * e3 + k
    T (p / (d2 * d3 * d4)) (p / (d3 * d4) % d2) (p / d4 % d3) (p % d4)

/-- The wrapped `nn.Linear` on a batched rank-3 input:
`out b n o = input b n ⬝ W.T + bias`. -/
def linearVal3 (nin : ℕ) (W : Mat) (bias : ℕ → ℚ) (x : Ten3) : Ten3 :=
  fun b n o => (∑ t ∈ Finset.range nin, x b n t * W o t) + bias o

/-- `mttl.models.adapters.SkilledLoRA`: live state as built by
`SkilledLoRA.__init__` / `create_for_layer`.  `lora_a` has logical shape
`(n_splits, n_skills, in_features / n_splits, rank)`; `lora_b` has
`(n_splits, n_skills, rank, out_features / n_splits)`. -/
structure SkilledLoRA where
  n_splits : ℕ
  n_skills : ℕ
  rank : ℕ
  alpha : ℚ
  use_warmup : Bool
  in_features : ℕ
  out_features : ℕ
  lora_a : Ten4
  lora_b : Ten4
  training_steps : ℕ
  training : Bool
  layerW : Mat
  layerB : ℕ → ℚ

/-- `self.scaling = self.alpha / self.rank` (inherited from `LoRA`). -/
def SkilledLoRA.scaling (m : SkilledLoRA) : ℚ := m.alpha / (m.rank : ℚ)

/-- The routing weights argument of `SkilledLoRA.forward_linear_`:
`weights.ndim == 1` is an integer skill index per example; otherwise a
continuous weight tensor of shape `(bs, n_splits, n_skills)`. -/
inductive Routing where
  | index (w : ℕ → ℕ) : Routing
  | dist (w : Ten3) : Routing

/-- `SkilledLoRA.forward_linear_(input, weights)` with `bs = input.size(0)`:
gather (integer routing) or contract (continuous routing) the per-skill
factors, reshape them to per-example matrices, apply the batched low-rank
product, scale, gate by warm-up when enabled, and add the wrapped layer's
output.  Returns the output and the updated adapter state. -/
def SkilledLoRA.forward_linear_ (m : SkilledLoRA) (bs : ℕ) (input : Ten3)
    (weights : Routing) : Ten3 × SkilledLoRA :=
  let m := if m.training then { m with training_steps := m.training_steps + 1 } else m
  let din := m.in_features / m.n_splits
  let dout := m.out_features / m.n_splits
  let AB : Ten3 × Ten3 :=
    match weights with
    | Routing.index w =>
        let A4 : Ten4 := fun s b d r => m.lora_a s (w b) d r
        let B4 : Ten4 := fun s b r o => m.lora_b s (w b) r o
        (reshape43 bs din m.rank m.in_features m.rank A4,
         reshape43 m.rank bs dout m.rank m.out_features B4.transpose12)
    | Routing.dist w =>
        let A4 : Ten4 := fun b q d r =>
          ∑ s ∈ Finset.range m.n_skills, w b q s * m.lora_a q s d r
        let B4 : Ten4 := fun b q r o =>
          ∑ s ∈ Finset.range m.n_skills, w b q s * m.lora_b q s r o
        (reshape43 m.n_splits din m.rank m.in_features m.rank A4,
         reshape43 m.rank m.n_splits dout m.rank m.out_features B4.transpose12)
  let A := AB.1
  let B := AB.2
  let adapter_out : Ten3 := fun b n o =>
    (∑ r ∈ Finset.range m.rank,
      (∑ i ∈ Finset.range m.in_features, input b n i * A b i r) * B b r o) * m.scaling
  let warmup := warmupFactor m.training_steps
  let adapter_out :=
    if m.use_warmup then fun b n o => adapter_out b n o * warmup else adapter_out
  let output : Ten3 := fun b n o =>
    linearVal3 m.in_features m.layerW m.layerB input b n o + adapter_out b n o
  (output, m)

/-- A continuous routing tensor `d` of shape `(bs, n_splits, n_skills)` is
the one-hot encoding of the per-example index vector `w`. -/
def Routing.onehot (bs nsplits nskills : ℕ) (w : ℕ → ℕ) (d : Ten3) : Prop :=
  ∀ b < bs, ∀ q < nsplits, ∀ s < nskills, d b q s = if s = w b then 1 else 0

/-! ## LN (`mttl.models.adapters.LN`) -/

/-- A dtype-tagged vector of exact values (the last-dimension slice a layer
norm operates on). -/
structure LNVec where
  val : ℕ → ℚ
  dt : DType

/-- `tensor.to(d)` on an `LNVec`. -/
def LNVec.to (v : LNVec) (d : DType) : LNVec := ⟨v.val, d⟩

/-- A dtype-tagged scalar tensor. -/
structure TS where
  val : ℚ
  dt : DType

/-- `mttl.models.adapters.LN`: live state.  `weight` is the wrapped
normalization layer's weight; `lora_b` is the adapter's parameter,
initialized from `weight.data` by `__init__`. -/
structure LN where
  out_features : ℕ
  variance_epsilon : ℚ
  weight : LNVec
  lora_b : LNVec

/-- `LN.__init__`: record the wrapped layer's weight and epsilon and
initialize `lora_b` from the weight's data. -/
def LN.init (n : ℕ) (eps : ℚ) (w : LNVec) : LN := ⟨n, eps, w, w⟩

/-- `input.to(torch.float32).pow(2).mean(-1, keepdim=True)`: the second
moment of the input, computed on the float32-cast input (so its dtype is
float32 whatever the input's dtype). -/
def LN.variance (m : LN) (input : LNVec) : TS :=
  let x := input.to DType.f32
  ⟨(∑ i ∈ Finset.range m.out_features, x.val i ^ 2) / (m.out_features : ℚ), x.dt⟩

/-- `LN.forward`: divide the input by the square root of the float32 second
moment plus epsilon (torch promotes the quotient to float32), cast back to
float16 when the wrapped weight is float16, and multiply by `lora_b`.
`torch.sqrt` is abstracted as the argument `sq`: the value-level claims
hold for every `sq`, and the counterexample only needs that, like the real
square root, `sq` is nonzero on the point it is evaluated at. -/
def LN.forward (sq : ℚ → ℚ) (m : LN) (input : LNVec) : LNVec :=
  let variance := m.variance input
  let input2 : LNVec :=
    ⟨fun i => input.val i / sq (variance.val + m.variance_epsilon),
     input.dt.promote variance.dt⟩
  let input3 := if m.weight.dt = DType.f16 then input2.to DType.f16 else input2
  ⟨fun i => m.lora_b.val i * input3.val i, m.lora_b.dt.promote input3.dt⟩

/-- The standard layer-normalization formula, as the spec words it: center
the input by its mean, divide by the square root of the variance (of the
centered input) plus epsilon, multiply by the weight (`sq` again standing
for the square root). -/
def layerNormStandard (sq : ℚ → ℚ) (w : ℕ → ℚ) (eps : ℚ) (n : ℕ) (x : ℕ → ℚ) : ℕ → ℚ :=
  let mu := (∑ i ∈ Finset.range n, x i) / (n : ℚ)
  let varx := (∑ i ∈ Finset.range n, (x i - mu) ^ 2) / (n : ℚ)
  fun i => w i * ((x i - mu) / sq (varx + eps))

/-- Root-mean-square normalization as the code implements it (no mean
subtraction; the normalizer is the mean of squares): the value-level
formula of `LN.forward`. -/
def rmsNormValue (sq : ℚ → ℚ) (w : ℕ → ℚ) (eps : ℚ) (n : ℕ) (x : ℕ → ℚ) : ℕ → ℚ :=
  fun i => w i * (x i / sq ((∑ t ∈ Finset.range n, x t ^ 2) / (n : ℚ) + eps))

/-- A rational stand-in for the square root at the single point `2` where
the counterexample evaluates it (`99 / 70` is the classical approximation
of `√2`; any value other than `0` exhibits the same divergence). -/
def sqrtStandIn : ℚ → ℚ := fun _ => 99 / 70

/-! ## Modifier registry (`mttl.models.modifiers.modify_model`) -/

/-- One structural parameter of the base transformer: its gradient-tracking
flag and whether the modifier configuration's layer pattern matches the
layer it belongs to. -/
structure TParam where
  requires_grad : Bool
  matched : Bool
deriving DecidableEq, Repr

/-- The live base model as `modify_transformer` sees it: its parameters, the
shared `task_id_container` side-table flag, and which registered modifier
(if any) has been applied to it. -/
structure Transformer where
  params : List TParam
  task_id_container : Bool
  applied_modifier : Option String
deriving DecidableEq, Repr

/-- A modifier configuration object.  `model_modifier = none` models both a
missing `model_modifier` attribute and a falsy one (Python truthiness);
`ctype` stands for `type(config)`, the key of `CONFIGS_TO_MODIFIERS`. -/
structure ModifierConfig where
  model_modifier : Option String
  ctype : String
deriving DecidableEq, Repr

/-- `get_modifier_type(config, model_modifier)`: the explicit argument,
else the configuration's `model_modifier` attribute, else the
`CONFIGS_TO_MODIFIERS` lookup keyed by the configuration's type
(`table` is that registry, an association list). -/
def get_modifier_type (table : List (String × String)) (config : ModifierConfig)
    (model_modifier : Option String) : Option String :=
  let mm := model_modifier.orElse (fun _ => config.model_modifier)
  mm.orElse (fun _ => table.lookup config.ctype)

/-- Modelled from the spec: `MODIFIERS[model_modifier].modify_transformer`,
the registered modifier class's own `modify_transformer` (its module, e.g.
`mttl/models/modifiers/lora.py`, is not under `src/`).  Per spec section 4.2
it replaces every pattern-matched layer in place with a Container wrapping
the original layer plus a fresh Adapter; it does not change the base
parameters' gradient flags. -/
def applyModifier (name : String) (t : Transformer) : Transformer :=
  { t with applied_modifier := some name }

/-- `modify_transformer(transformer, modifier_config, model_modifier)`:
install the shared `task_id_container`, set every base parameter's
`requires_grad` to `False` when the configuration carries a truthy
`model_modifier` attribute and to `True` otherwise, resolve the modifier
name, warn and return the transformer when nothing resolves, apply the
registered modifier when the name is registered (`modifiers` is the
`MODIFIERS` registry), and raise `ValueError` otherwise. -/
def modify_transformer (modifiers : List String) (table : List (String × String))
    (transformer : Transformer) (modifier_config : ModifierConfig)
    (model_modifier : Option String) : Except String Transformer :=
  let transformer := { transformer with task_id_container := true }
  let transformer :=
    if modifier_config.model_modifier.isSome then
      { transformer with
          params := transformer.params.map fun p => { p with requires_grad := false } }
    else
      { transformer with
          params := transformer.params.map fun p => { p with requires_grad := true } }
  match get_modifier_type table modifier_config model_modifier with
  | none => Except.ok transformer
  | some mm =>
      if mm ∈ modifiers then Except.ok (applyModifier mm transformer)
      else Except.error ("Model modifier " ++ mm ++ " not found.")

/-! ## Expert library

The library implementation (`mttl/models/modifiers/expert_containers/
expert_library.py`) is not under `src/`; only its tests are.  The library is
therefore modelled from the spec: a store of named experts where names are
unique among non-deleted entries, `add` fails on a duplicate non-deleted
name, soft delete hides an entry from listing/length/lookup, `unremove`
restores it, and a hard delete drops it entirely. -/

/-- Modelled from the spec: an Expert data entity — adapter configuration,
weights keyed by layer path, and the base model recorded in its metadata. -/
structure Expert where
  config : String
  weights : List (String × List ℚ)
  model : String
deriving DecidableEq, Repr

/-- Modelled from the spec: one stored library entry — the expert under its
unique name plus the soft-deletion flag. -/
structure LibEntry where
  name : String
  expert : Expert
  deleted : Bool
deriving DecidableEq, Repr

/-- Modelled from the spec: the expert library's state, a list of entries. -/
structure ExpertLibrary where
  data : List LibEntry
deriving DecidableEq, Repr

/-- An entry named `name` that is not soft-deleted. -/
def liveNamed (name : String) (e : LibEntry) : Bool :=
  e.name == name && !e.deleted

/-- Modelled from the spec: the names the library exposes — non-deleted
entries only. -/
def ExpertLibrary.listNames (l : ExpertLibrary) : List String :=
  (l.data.filter (fun e => !e.deleted)).map (fun e => e.name)

/-- Modelled from the spec: `len(library)` — the number of non-deleted
entries. -/
def ExpertLibrary.size (l : ExpertLibrary) : ℕ := l.listNames.length

/-- Modelled from the spec: `library[name]` — the expert stored under a
non-deleted entry named `name`. -/
def ExpertLibrary.get (l : ExpertLibrary) (name : String) : Option Expert :=
  (l.data.find? (liveNamed name)).map (fun e => e.expert)

/-- Modelled from the spec: `add_expert(expert, name)` — a duplicate
non-deleted name is a `ValueError`; otherwise the entry is appended and
persisted. -/
def ExpertLibrary.add_expert (l : ExpertLibrary) (expert : Expert) (name : String) :
    Except String ExpertLibrary :=
  if l.data.any (liveNamed name) then
    Except.error ("Expert " ++ name ++ " already exists in the library.")
  else
    Except.ok ⟨l.data ++ [⟨name, expert, false⟩]⟩

/-- Mark the first non-deleted entry named `name` as deleted. -/
def softDeleteEntry : List LibEntry → String → List LibEntry
  | [], _ => []
  | e :: rest, name =>
    if liveNamed name e then { e with deleted := true } :: rest
    else e :: softDeleteEntry rest name

/-- Drop the first non-deleted entry named `name` from the list. -/
def hardDeleteEntry : List LibEntry → String → List LibEntry
  | [], _ => []
  | e :: rest, name =>
    if liveNamed name e then rest
    else e :: hardDeleteEntry rest name

/-- Clear the deletion flag of the first soft-deleted entry named `name`. -/
def undeleteEntry : List LibEntry → String → List LibEntry
  | [], _ => []
  | e :: rest, name =>
    if e.name == name && e.deleted then { e with deleted := false } :: rest
    else e :: undeleteEntry rest name

/-- Modelled from the spec: `remove_expert(name, soft_delete)` — a missing
(or already deleted) name is an error; a soft delete flags the entry, a
hard delete drops it. -/
def ExpertLibrary.remove_expert (l : ExpertLibrary) (name : String)
    (soft_delete : Bool) : Except String ExpertLibrary :=
  if l.data.any (liveNamed name) then
    if soft_delete then Except.ok ⟨softDeleteEntry l.data name⟩
    else Except.ok ⟨hardDeleteEntry l.data name⟩
  else Except.error ("Expert " ++ name ++ " not found in the library.")

/-- Modelled from the spec: `unremove_expert(name)` — restores a
soft-deleted entry; an error when no soft-deleted entry carries the name. -/
def ExpertLibrary.unremove_expert (l : ExpertLibrary) (name : String) :
    Except String ExpertLibrary :=
  if l.data.any (fun e => e.name == name && e.deleted) then
    Except.ok ⟨undeleteEntry l.data name⟩
  else Except.error ("Expert " ++ name ++ " is not deleted.")

/-! ## `MultiExpertModel.load_expert` (`projects/wiki_experts/expert_model.py`) -/

/-- The `ValueError` message of `MultiExpertModel.load_expert` on a base
model mismatch, naming the detected (expert-side) and expected (live-model)
base models. -/
def loadExpertMismatchMsg (detected expected : String) : String :=
  "The expert has been trained on top of a different model! Detected: "
    ++ detected ++ " - Expected: " ++ expected

/-- `MultiExpertModel.load_expert`: check the expert's recorded base model
(`expert.expert_config.model`, here `expert_model`) against the live
model's configured base model (`self.hparams.model`, here `hparams_model`)
and raise before touching the live model on a mismatch; otherwise hand the
live model to `add_expert_to_transformer` (a function argument here: the
module defining it is outside the modelled slice). -/
def MultiExpertModel.load_expert {α : Type} (hparams_model expert_model : String)
    (model : α) (add_expert_to_transformer : α → α) : Except String α :=
  if hparams_model ≠ expert_model then
    Except.error (loadExpertMismatchMsg expert_model hparams_model)
  else
    Except.ok (add_expert_to_transformer model)

/-! ## Concrete instances used by witnesses and counterexamples -/

/-- Input used by the C1 witness. -/
def C1x : TM := ⟨fun _ j => (j : ℚ) + 1, DType.f32⟩

/-- The spec's end-to-end adapter: `in_features = 8`, `out_features = 8`,
rank 2, alpha 16, zero-initialized up-projection. -/
def C1m0 : LoRA :=
  ⟨2, 16, false, 8, 8, ⟨fun i r => (i : ℚ) + (r : ℚ), DType.f32⟩,
   ⟨Mat.zero, DType.f32⟩, 0, false, ⟨fun o t => (o : ℚ) - (t : ℚ), DType.f32⟩, fun _ => 1⟩

/-- The same adapter after the up-projection is set to a nonzero matrix. -/
def C1m1 : LoRA := { C1m0 with lora_b := ⟨fun r o => (r : ℚ) + (o : ℚ) + 1, DType.f32⟩ }

/-- Adapter used by the C2 witness: warm-up enabled, evaluation mode. -/
def C2m : LoRA :=
  ⟨2, 16, true, 2, 2, ⟨Mat.zero, DType.f32⟩, ⟨Mat.zero, DType.f32⟩, 5, false,
   ⟨Mat.zero, DType.f32⟩, fun _ => 0⟩

/-- Input used by the C2 witness. -/
def C2x : TM := ⟨fun _ _ => 1, DType.f32⟩

/-- Adapter used by the C6 witness: a half-precision wrapped layer. -/
def C6m : LoRA :=
  ⟨2, 16, false, 2, 2, ⟨Mat.zero, DType.f32⟩, ⟨Mat.zero, DType.f32⟩, 0, false,
   ⟨Mat.zero, DType.f16⟩, fun _ => 0⟩

/-- Half-precision input used by the C6 witness. -/
def C6x : TM := ⟨fun _ _ => 1, DType.f16⟩

/-- Weight used by the C5 counterexample. -/
def C5w : LNVec := ⟨fun _ => 1, DType.f32⟩

/-- Input used by the C5 counterexample: the constant vector `[1, 1]`. -/
def C5x : LNVec := ⟨fun _ => 1, DType.f32⟩

/-- Half-precision weight used by the C5 witness. -/
def C5w16 : LNVec := ⟨fun _ => 2, DType.f16⟩

/-- Half-precision input used by the C5 witness. -/
def C5x16 : LNVec := ⟨fun _ => 3, DType.f16⟩

/-- Configuration used by the C3 counterexample: no `model_modifier`
attribute and a config type absent from the lookup table. -/
def C3cfg : ModifierConfig := ⟨none, "UnknownConfig"⟩

/-- Transformer used by the C3 counterexample: one unmatched trainable
parameter. -/
def C3t : Transformer := ⟨[⟨true, false⟩], false, none⟩

/-- Configuration used by the C4 counterexample: a truthy `model_modifier`. -/
def C4cfg : ModifierConfig := ⟨some ("lora"), "LoRAConfig"⟩

/-- Transformer used by the C4 counterexample: its single parameter is NOT
matched by the modifier pattern and is trainable. -/
def C4t : Transformer := ⟨[⟨true, false⟩], false, none⟩

/-- Library used by the C7 witness: one non-deleted expert. -/
def C7lib : ExpertLibrary :=
  ⟨[⟨"abstract_algebra", ⟨"lora", [("model.layer.0", [1, 2])], "phi-2"⟩, false⟩]⟩

/-- The expert re-added by the C7 witness. -/
def C7dump : Expert := ⟨"lora", [("model.layer.0", [1, 2])], "phi-2"⟩

/-- First expert of the C8 witness library. -/
def C8e1 : Expert := ⟨"lora", [("model.layer.0", [1, 2])], "phi-2"⟩

/-- Second expert of the C8 witness library. -/
def C8e2 : Expert := ⟨"lora", [("model.layer.0", [3, 4])], "phi-2"⟩

/-- Two-expert library used by the C8 witness. -/
def C8lib : ExpertLibrary :=
  ⟨[⟨"abstract_algebra", C8e1, false⟩, ⟨"anatomy", C8e2, false⟩]⟩

/-- SkilledLoRA instance of the C10 divergence: one split, one skill,
`in_features = 1`, rank 2, `out_features = 1`, scaling 1, up-projection
factors `[1, 2]` along the rank axis. -/
def C10m : SkilledLoRA :=
  ⟨1, 1, 2, 2, false, 1, 1, fun _ _ _ _ => 1, fun _ _ r _ => 1 + (r : ℚ), 0, false,
   Mat.zero, fun _ => 0⟩

/-- One-hot continuous routing: every example puts weight 1 on skill 0. -/
def C10dist : Ten3 := fun _ _ s => if s = 0 then 1 else 0

/-- The corresponding integer routing: every example selects skill 0. -/
def C10idx : ℕ → ℕ := fun _ => 0

/-- Constant batch input of two examples. -/
def C10input : Ten3 := fun _ _ _ => 1

/-! ## Theorems -/

/-- The value of an `if` on tagged matrices, projected at one entry. -/
theorem TM.val_ite (c : Prop) [Decidable c] (a b : TM) (i j : ℕ) :
    (if c then a else b).val i j = if c then a.val i j else b.val i j := by
  split <;> rfl

/-- The dtype of an `if` on tagged matrices. -/
theorem TM.dt_ite (c : Prop) [Decidable c] (a b : TM) :
    (if c then a else b).dt = if c then a.dt else b.dt := by
  split <;> rfl

/-- C1: with default configuration (no warm-up, no randomized init) the
up-projection is zero-initialized; whenever `lora_b` is zero,
`forward(x)` equals the wrapped layer's output exactly, for every input;
and with warm-up disabled, `forward(x)` equals the layer output plus
`(alpha / rank) * (x @ A @ B)`. -/
theorem C1_lora_noop_at_init_and_scaled_correction
    (rand : Mat) (m : LoRA) (input : TM) (i j : ℕ) :
    LoRA.reset_b false false rand = Mat.zero ∧
    (m.lora_b.val = Mat.zero →
      (m.forward_linear_ input).1.val i j
        = linearVal m.in_features m.layerW.val m.layerB input.val i j) ∧
    (m.use_warmup = false →
      (m.forward_linear_ input).1.val i j
        = linearVal m.in_features m.layerW.val m.layerB input.val i j
          + m.scaling
            * Mat.mul m.rank (Mat.mul m.in_features input.val m.lora_a.val)
                m.lora_b.val i j) := by
  refine ⟨rfl, ?_, ?_⟩ <;> intro h <;> cases hmt : m.training <;>
    simp [LoRA.forward_linear_, LoRA.forward_trace, LoRA.adapter_raw, LoRA.foward_layer,
      TM.add, TM.smul, TM.mul, TM.to, TM.val_ite, Mat.add, Mat.smul, Mat.mul, Mat.zero,
      linearVal, LoRA.scaling, hmt, h]

/-- C1 witness: at the spec's 8-by-8, rank-2, alpha-16 example the scale is
8, the zero-`lora_b` forward reproduces the layer output, and the
nonzero-`lora_b` forward adds the scaled low-rank correction. -/
theorem C1_witness :
    LoRA.scaling C1m0 = 8 ∧
    ((C1m0.forward_linear_ C1x).1.val 0 0
      = linearVal C1m0.in_features C1m0.layerW.val C1m0.layerB C1x.val 0 0) ∧
    ((C1m1.forward_linear_ C1x).1.val 0 0
      = linearVal C1m1.in_features C1m1.layerW.val C1m1.layerB C1x.val 0 0
        + C1m1.scaling
          * Mat.mul C1m1.rank (Mat.mul C1m1.in_features C1x.val C1m1.lora_a.val)
              C1m1.lora_b.val 0 0) :=
  ⟨by norm_num [C1m0, LoRA.scaling],
   (C1_lora_noop_at_init_and_scaled_correction Mat.zero C1m0 C1x 0 0).2.1 rfl,
   (C1_lora_noop_at_init_and_scaled_correction Mat.zero C1m1 C1x 0 0).2.2 rfl⟩

/-- C2: the warm-up gate applied to the correction is
`min(training_steps / 10000, 1)` of the post-call step counter; that factor
is non-decreasing in the counter and equals 1 from the 10000th
training-mode call on; a training-mode call advances the counter by one and
an evaluation-mode call leaves the adapter state (hence the gate)
unchanged. -/
theorem C2_warmup_gate_monotone_saturating
    (m : LoRA) (input : TM) :
    (m.use_warmup = true →
      (m.forward_trace input).adapter_out
        = TM.smul (warmupFactor ((m.forward_trace input).state.training_steps))
            (m.adapter_raw (input.to DType.f32))) ∧
    (∀ k k' : ℕ, k ≤ k' → warmupFactor k ≤ warmupFactor k') ∧
    (∀ k : ℕ, 10000 ≤ k → warmupFactor k = 1) ∧
    (m.training = true →
      (m.forward_linear_ input).2.training_steps = m.training_steps + 1) ∧
    (m.training = false → (m.forward_linear_ input).2 = m) := by
  refine ⟨?_, ?_, ?_, ?_, ?_⟩
  · intro hw
    cases hmt : m.training <;>
      simp [LoRA.forward_trace, LoRA.adapter_raw, LoRA.scaling, hmt, hw]
  · intro k k' hk
    unfold warmupFactor
    refine min_le_min ?_ le_rfl
    exact div_le_div_of_nonneg_right (by exact_mod_cast hk) (by norm_num)
  · intro k hk
    unfold warmupFactor
    refine min_eq_right ?_
    rw [le_div_iff₀ (by norm_num : (0:ℚ) < 10000)]
    simpa using (by exact_mod_cast hk : (10000:ℚ) ≤ (k:ℚ))
  · intro ht
    simp [LoRA.forward_linear_, LoRA.forward_trace, ht]
  · intro ht
    simp [LoRA.forward_linear_, LoRA.forward_trace, ht]

/-- C2 witness: the gate at 3 steps is at most the gate at 7, the gate at
12000 steps is exactly 1, and an evaluation-mode forward leaves the adapter
state unchanged. -/
theorem C2_witness :
    warmupFactor 3 ≤ warmupFactor 7 ∧ warmupFactor 12000 = 1 ∧
    (C2m.forward_linear_ C2x).2 = C2m :=
  ⟨(C2_warmup_gate_monotone_saturating C2m C2x).2.1 3 7 (by decide),
   (C2_warmup_gate_monotone_saturating C2m C2x).2.2.1 12000 (by decide),
   (C2_warmup_gate_monotone_saturating C2m C2x).2.2.2.2 rfl⟩

/-- C6: for a floating-dtype input and a floating-dtype wrapped layer, with
the LoRA parameters in float32 as created, the low-rank correction and the
sum with the layer output are float32 tensors, and the returned output's
dtype equals the caller's input dtype. -/
theorem C6_lora_float32_policy (m : LoRA) (input : TM)
    (hin : input.dt.isFloating = true)
    (hlw : m.layerW.dt.isFloating = true)
    (ha : m.lora_a.dt = DType.f32) (hb : m.lora_b.dt = DType.f32) :
    (m.forward_trace input).adapter_out.dt = DType.f32 ∧
    (m.forward_trace input).pre_output.dt = DType.f32 ∧
    (m.forward_linear_ input).1.dt = input.dt := by
  refine ⟨?_, ?_, ?_⟩ <;>
    cases hmt : m.training <;>
      simp [LoRA.forward_linear_, LoRA.forward_trace, LoRA.adapter_raw,
        LoRA.foward_layer, TM.add, TM.smul, TM.mul, TM.to, TM.dt_ite,
        DType.promote, DType.rank, hmt, ha, hb]

/-- C6 witness: for a float16 input to a float16-layer adapter, the
correction and pre-cast sum are float32 and the output is float16. -/
theorem C6_witness :
    (C6m.forward_trace C6x).adapter_out.dt = DType.f32 ∧
    (C6m.forward_trace C6x).pre_output.dt = DType.f32 ∧
    (C6m.forward_linear_ C6x).1.dt = C6x.dt :=
  C6_lora_float32_policy C6m C6x (by decide) (by decide) rfl rfl

/-- C5 (amended): `LN.forward` computes root-mean-square normalization —
the input divided by the square root of the float32 mean of squares plus
epsilon, times the weight, with no mean subtraction; the second-moment
tensor is float32 for every input dtype, and the result is float16 when
the wrapped weight is float16 and float32 when the weight is float32. -/
theorem C5_ln_is_rms_with_float32_variance
    (sq : ℚ → ℚ) (n : ℕ) (eps : ℚ) (w input : LNVec) (i : ℕ) :
    (((LN.init n eps w).forward sq input).val i
        = rmsNormValue sq w.val eps n input.val i) ∧
    ((LN.init n eps w).variance input).dt = DType.f32 ∧
    (w.dt = DType.f16 → ((LN.init n eps w).forward sq input).dt = DType.f16) ∧
    (w.dt = DType.f32 → ((LN.init n eps w).forward sq input).dt = DType.f32) := by
  refine ⟨?_, rfl, ?_, ?_⟩
  · unfold LN.forward LN.variance LN.init rmsNormValue LNVec.to
    split <;> rfl
  · intro h16
    simp [LN.forward, LN.init, LNVec.to, h16, DType.promote, DType.rank]
  · intro h32
    cases hd : input.dt <;>
      simp [LN.forward, LN.variance, LN.init, LNVec.to, h32, hd, DType.promote, DType.rank]

/-- C5 counterexample: on the constant input `[1, 1]` with unit weight and
epsilon 1, `LN.forward` returns a nonzero value while the standard
layer-normalization formula (mean subtraction, variance of the centered
input) returns 0 — the adapter does not apply the standard layer-norm
formula. -/
theorem C5_counterexample :
    ((LN.init 2 1 C5w).forward sqrtStandIn C5x).val 0
      ≠ layerNormStandard sqrtStandIn C5w.val 1 2 C5x.val 0 := by
  norm_num [LN.forward, LN.variance, LN.init, LNVec.to, layerNormStandard,
    sqrtStandIn, C5w, C5x, Finset.sum_range_succ]
  rw [if_neg (by decide : ¬ (DType.f32 = DType.f16))]
  norm_num

/-- C5 witness: on a float16 input with a float16 weight, `LN.forward`
equals the RMS formula, the second moment is float32, and the output is
float16. -/
theorem C5_witness :
    (((LN.init 2 1 C5w16).forward sqrtStandIn C5x16).val 0
        = rmsNormValue sqrtStandIn C5w16.val 1 2 C5x16.val 0) ∧
    ((LN.init 2 1 C5w16).variance C5x16).dt = DType.f32 ∧
    ((LN.init 2 1 C5w16).forward sqrtStandIn C5x16).dt = DType.f16 :=
  ⟨(C5_ln_is_rms_with_float32_variance sqrtStandIn 2 1 C5w16 C5x16 0).1,
   (C5_ln_is_rms_with_float32_variance sqrtStandIn 2 1 C5w16 C5x16 0).2.1,
   (C5_ln_is_rms_with_float32_variance sqrtStandIn 2 1 C5w16 C5x16 0).2.2.1 rfl⟩

/-- C3 counterexample: with no explicit name, no config attribute and an
empty lookup table, the resolution yields nothing and `modify_transformer`
returns the model successfully (with only the gradient-flag and
task-container side effects) instead of raising an error. -/
theorem C3_counterexample :
    get_modifier_type [] C3cfg none = none ∧
    modify_transformer [] [] C3t C3cfg none
      = Except.ok ⟨[⟨true, false⟩], true, none⟩ :=
  ⟨rfl, rfl⟩

/-- C3 (amended): when the modifier name resolves to nothing,
`modify_transformer` logs a warning and returns the model with no modifier
applied (no error); an error is raised only when a name resolves but is
not registered. -/
theorem C3_unresolved_name_warns_and_returns
    (modifiers : List String) (table : List (String × String))
    (t : Transformer) (cfg : ModifierConfig) (mmArg : Option String) :
    (get_modifier_type table cfg mmArg = none →
      ∃ t', modify_transformer modifiers table t cfg mmArg = Except.ok t' ∧
        t'.applied_modifier = t.applied_modifier) ∧
    (∀ mm, get_modifier_type table cfg mmArg = some mm → mm ∉ modifiers →
      modify_transformer modifiers table t cfg mmArg
        = Except.error ("Model modifier " ++ mm ++ " not found.")) := by
  constructor
  · intro hres
    unfold modify_transformer
    rw [hres]
    split <;> exact ⟨_, rfl, rfl⟩
  · intro mm hres hnot
    unfold modify_transformer
    rw [hres]
    split <;> simp [hnot]

/-- C3 witness: on the concrete unresolvable configuration the call
returns the model with no modifier applied, and a resolvable but
unregistered name is rejected with the not-found error. -/
theorem C3_witness :
    (∃ t', modify_transformer [] [] C3t C3cfg none = Except.ok t' ∧
      t'.applied_modifier = C3t.applied_modifier) ∧
    modify_transformer [] [] C3t ⟨some ("mystery"), "UnknownConfig"⟩ none
      = Except.error ("Model modifier " ++ "mystery" ++ " not found.") :=
  ⟨(C3_unresolved_name_warns_and_returns [] [] C3t C3cfg none).1 rfl,
   (C3_unresolved_name_warns_and_returns [] [] C3t ⟨some ("mystery"), "UnknownConfig"⟩
      none).2 ("mystery") rfl (by simp)⟩

/-- C4 counterexample: modification with a truthy `model_modifier` flips
the unmatched parameter's `requires_grad` flag from true to false — the
non-matching layer's gradient flag is not left untouched, contrary to the
claim. -/
theorem C4_counterexample :
    C4t.params = [⟨true, false⟩] ∧
    modify_transformer ["lora"] [] C4t C4cfg none
      = Except.ok ⟨[⟨false, false⟩], true, some ("lora")⟩ :=
  ⟨rfl, rfl⟩

/-- Helper: a successful `modify_transformer` sets every parameter's
`requires_grad` to the negation of the configuration's truthy
`model_modifier` test, keeping the other fields of each parameter. -/
theorem modify_transformer_ok_params
    (modifiers : List String) (table : List (String × String))
    (t : Transformer) (cfg : ModifierConfig) (mmArg : Option String)
    (t' : Transformer)
    (h : modify_transformer modifiers table t cfg mmArg = Except.ok t') :
    t'.params
      = t.params.map (fun p => { p with requires_grad := !cfg.model_modifier.isSome }) := by
  unfold modify_transformer at h
  cases hs : cfg.model_modifier.isSome <;> rw [hs] at h <;>
    simp only [Bool.false_eq_true, if_true, if_false, reduceIte] at h <;>
    rcases hres : get_modifier_type table cfg mmArg with _ | mm <;> simp only [hres] at h
  · rw [Except.ok.injEq] at h
    subst h
    simp [hs]
  · split at h
    · rw [Except.ok.injEq] at h
      subst h
      simp [applyModifier, hs]
    · exact Except.noConfusion h
  · rw [Except.ok.injEq] at h
    subst h
    simp [hs]
  · split at h
    · rw [Except.ok.injEq] at h
      subst h
      simp [applyModifier, hs]
    · exact Except.noConfusion h

/-- C4 (amended): a configuration with a truthy `model_modifier` freezes
EVERY base parameter, matched or not (`requires_grad := false`); with no
truthy `model_modifier` (a full fine-tune) every base parameter becomes
trainable; the pattern-match structure of the parameter list is preserved
either way. -/
theorem C4_freeze_is_global
    (modifiers : List String) (table : List (String × String))
    (t : Transformer) (cfg : ModifierConfig) (mmArg : Option String)
    (t' : Transformer)
    (h : modify_transformer modifiers table t cfg mmArg = Except.ok t') :
    (cfg.model_modifier ≠ none → ∀ p ∈ t'.params, p.requires_grad = false) ∧
    (cfg.model_modifier = none → ∀ p ∈ t'.params, p.requires_grad = true) ∧
    t'.params.map TParam.matched = t.params.map TParam.matched := by
  have hp := modify_transformer_ok_params modifiers table t cfg mmArg t' h
  refine ⟨?_, ?_, ?_⟩
  · intro hne p hmem
    rw [hp] at hmem
    rcases List.mem_map.mp hmem with ⟨q, _, rfl⟩
    have hsome : cfg.model_modifier.isSome = true := Option.ne_none_iff_isSome.mp hne
    simp [hsome]
  · intro heq p hmem
    rw [hp] at hmem
    rcases List.mem_map.mp hmem with ⟨q, _, rfl⟩
    simp [heq]
  · rw [hp, List.map_map]
    rfl

/-- C4 witness: for a two-parameter model (one matched, one not) under a
registered truthy modifier, both parameters come out frozen and the
matched flags are preserved. -/
theorem C4_witness :
    ((⟨some ("lora"), "LoRAConfig"⟩ : ModifierConfig).model_modifier ≠ none →
      ∀ p ∈ (Transformer.mk [⟨false, false⟩, ⟨false, true⟩] true (some ("lora"))).params,
        p.requires_grad = false) ∧
    ((⟨some ("lora"), "LoRAConfig"⟩ : ModifierConfig).model_modifier = none →
      ∀ p ∈ (Transformer.mk [⟨false, false⟩, ⟨false, true⟩] true (some ("lora"))).params,
        p.requires_grad = true) ∧
    (Transformer.mk [⟨false, false⟩, ⟨false, true⟩] true (some ("lora"))).params.map
        TParam.matched
      = (Transformer.mk [⟨true, false⟩, ⟨false, true⟩] false none).params.map
          TParam.matched :=
  C4_freeze_is_global ["lora"] [] ⟨[⟨true, false⟩, ⟨false, true⟩], false, none⟩
    ⟨some ("lora"), "LoRAConfig"⟩ none
    ⟨[⟨false, false⟩, ⟨false, true⟩], true, some ("lora")⟩ rfl

/-- C9: loading an expert whose recorded base model differs from the live
model's configured base model fails with a `ValueError` naming the detected
and expected models, and does so without consulting the expert-attachment
step — the result is the same whatever attachment function would have run,
so the live model is never modified. -/
theorem C9_load_expert_fails_fast {α : Type} (hparams_model expert_model : String)
    (model : α) (addFn : α → α) (h : hparams_model ≠ expert_model) :
    MultiExpertModel.load_expert hparams_model expert_model model addFn
        = Except.error (loadExpertMismatchMsg expert_model hparams_model) ∧
    (∀ addFn2 : α → α,
      MultiExpertModel.load_expert hparams_model expert_model model addFn
        = MultiExpertModel.load_expert hparams_model expert_model model addFn2) := by
  constructor
  · simp [MultiExpertModel.load_expert, h]
  · intro addFn2
    simp [MultiExpertModel.load_expert, h]

/-- C9 witness: loading a phi-2 expert into a gpt-neo model fails with the
mismatch error regardless of the attachment function. -/
theorem C9_witness :
    MultiExpertModel.load_expert ("EleutherAI/gpt-neo-125m") ("phi-2") (0 : ℕ)
        (fun x => x + 1)
      = Except.error (loadExpertMismatchMsg ("phi-2") ("EleutherAI/gpt-neo-125m")) ∧
    (∀ addFn2 : ℕ → ℕ,
      MultiExpertModel.load_expert ("EleutherAI/gpt-neo-125m") ("phi-2") (0 : ℕ)
          (fun x => x + 1)
        = MultiExpertModel.load_expert ("EleutherAI/gpt-neo-125m") ("phi-2") (0 : ℕ)
            addFn2) :=
  C9_load_expert_fails_fast ("EleutherAI/gpt-neo-125m") ("phi-2") 0 (fun x => x + 1)
    (by decide)

/-- A non-deleted entry named `name` in a library makes the duplicate test
of `add_expert` succeed. -/
theorem any_liveNamed_of_get {l : ExpertLibrary} {name : String} {e : Expert}
    (h : l.get name = some e) : l.data.any (liveNamed name) = true := by
  rcases Option.map_eq_some'.mp h with ⟨ent, hfind, _⟩
  exact List.any_eq_true.mpr ⟨ent, List.mem_of_find?_eq_some hfind, List.find?_some hfind⟩

/-- `liveNamed` unfolded to a propositional description. -/
theorem liveNamed_eq_true {name : String} {a : LibEntry} :
    liveNamed name a = true ↔ a.name = name ∧ a.deleted = false := by
  simp [liveNamed, Bool.and_eq_true, beq_iff_eq, Bool.not_eq_true']

/-- C7: adding an expert under a name the library already holds
non-deleted fails with the duplicate error and produces no updated
library. -/
theorem C7_add_duplicate_fails (l : ExpertLibrary) (name : String) (e e2 : Expert)
    (h : l.get name = some e) :
    (l.add_expert e2 name
        = Except.error ("Expert " ++ name ++ " already exists in the library.")) ∧
    ∀ l2, l.add_expert e2 name ≠ Except.ok l2 := by
  have hany := any_liveNamed_of_get h
  constructor
  · simp [ExpertLibrary.add_expert, hany]
  · intro l2
    simp [ExpertLibrary.add_expert, hany]

/-- C7 witness: re-adding the already stored expert fails with the
duplicate error and yields no library. -/
theorem C7_witness :
    (C7lib.add_expert C7dump ("abstract_algebra")
        = Except.error ("Expert " ++ "abstract_algebra"
            ++ " already exists in the library.")) ∧
    ∀ l2, C7lib.add_expert C7dump ("abstract_algebra") ≠ Except.ok l2 :=
  C7_add_duplicate_fails C7lib ("abstract_algebra") C7dump C7dump rfl

/-- Under unique entry names, soft-deleting a live entry named `name`
flags exactly that entry: every remaining entry under the name is flagged,
the flagged entry is present, undeleting restores the original list, and
the live count drops by one. -/
theorem softDelete_props {name : String} :
    ∀ {L : List LibEntry} {ent : LibEntry},
    (L.map LibEntry.name).Nodup →
    L.find? (liveNamed name) = some ent →
    (∀ a ∈ softDeleteEntry L name, a.name = name → a.deleted = true) ∧
    (softDeleteEntry L name).any (fun e => e.name == name && e.deleted) = true ∧
    undeleteEntry (softDeleteEntry L name) name = L ∧
    ((softDeleteEntry L name).filter (fun e => !e.deleted)).length + 1
      = (L.filter (fun e => !e.deleted)).length := by
  intro L
  induction L with
  | nil => intro ent _ hfind; simp at hfind
  | cons a L ih =>
    intro ent hnd hfind
    by_cases hla : liveNamed name a = true
    · obtain ⟨han, had⟩ := liveNamed_eq_true.mp hla
      have hanotin := (List.nodup_cons.mp hnd).1
      simp only [softDeleteEntry, if_pos hla]
      refine ⟨?_, ?_, ?_, ?_⟩
      · intro b hb hbn
        rcases List.mem_cons.mp hb with rfl | hbL
        · rfl
        · exact absurd (han ▸ List.mem_map.mpr ⟨b, hbL, hbn⟩) hanotin
      · simp [List.any_cons, han]
      · have hcond : (({ a with deleted := true } : LibEntry).name == name
            && ({ a with deleted := true } : LibEntry).deleted) = true := by
          simp [han]
        simp only [undeleteEntry, if_pos hcond]
        have : ({ a with deleted := false } : LibEntry) = a := by
          cases a
          simp_all
        rw [this]
      · simp [List.filter_cons, had]
    · have hfind' : L.find? (liveNamed name) = some ent := by
        rwa [List.find?_cons_of_neg _ hla] at hfind
      have hnd' := (List.nodup_cons.mp hnd).2
      have hanotin := (List.nodup_cons.mp hnd).1
      have hne : a.name ≠ name := by
        intro he
        have hmem := List.mem_of_find?_eq_some hfind'
        have hname : ent.name = name := (liveNamed_eq_true.mp (List.find?_some hfind')).1
        exact hanotin (he ▸ List.mem_map.mpr ⟨ent, hmem, hname⟩)
      obtain ⟨ih1, ih2, ih3, ih4⟩ := ih hnd' hfind'
      have hbeq : (a.name == name) = false := by simp [hne]
      simp only [softDeleteEntry, if_neg hla]
      refine ⟨?_, ?_, ?_, ?_⟩
      · intro b hb hbn
        rcases List.mem_cons.mp hb with rfl | hbL
        · exact absurd hbn hne
        · exact ih1 b hbL hbn
      · simp [List.any_cons, hbeq, ih2]
      · have hcond : (a.name == name && a.deleted) = false := by simp [hbeq]
        simp only [undeleteEntry, if_neg (by simp [hcond] : ¬ (a.name == name && a.deleted) = true)]
        rw [ih3]
      · simp only [List.filter_cons]
        rcases hd : a.deleted <;> simp [hd] <;> omega

/-- Under unique entry names, a hard delete of a live entry named `name`
leaves no entry under that name at all. -/
theorem hardDelete_no_named {name : String} :
    ∀ {L : List LibEntry} {ent : LibEntry},
    (L.map LibEntry.name).Nodup →
    L.find? (liveNamed name) = some ent →
    ∀ a ∈ hardDeleteEntry L name, (a.name == name) = false := by
  intro L
  induction L with
  | nil => intro ent _ hfind; simp at hfind
  | cons a L ih =>
    intro ent hnd hfind
    by_cases hla : liveNamed name a = true
    · have han := (liveNamed_eq_true.mp hla).1
      have hanotin := (List.nodup_cons.mp hnd).1
      simp only [hardDeleteEntry, if_pos hla]
      intro b hb
      simp only [beq_eq_false_iff_ne, ne_eq]
      intro he
      exact hanotin (han ▸ List.mem_map.mpr ⟨b, hb, he⟩)
    · have hfind' : L.find? (liveNamed name) = some ent := by
        rwa [List.find?_cons_of_neg _ hla] at hfind
      have hnd' := (List.nodup_cons.mp hnd).2
      have hanotin := (List.nodup_cons.mp hnd).1
      have hne : a.name ≠ name := by
        intro he
        have hmem := List.mem_of_find?_eq_some hfind'
        have hname : ent.name = name := (liveNamed_eq_true.mp (List.find?_some hfind')).1
        exact hanotin (he ▸ List.mem_map.mpr ⟨ent, hmem, hname⟩)
      simp only [hardDeleteEntry, if_neg hla]
      intro b hb
      rcases List.mem_cons.mp hb with rfl | hbL
      · simp [hne]
      · exact ih hnd' hfind' b hbL

/-- C8: for a library with unique entry names holding `name` live, a soft
remove hides the name from listing, lookup and length; the subsequent
unremove restores the library exactly (entry contents included); and after
a hard remove, unremove can never succeed. -/
theorem C8_soft_delete_reversible_hard_not
    (l : ExpertLibrary) (name : String) (e : Expert)
    (hnd : (l.data.map LibEntry.name).Nodup)
    (h : l.get name = some e) :
    ∃ l', l.remove_expert name true = Except.ok l' ∧
      name ∉ l'.listNames ∧
      l'.get name = none ∧
      l'.size + 1 = l.size ∧
      l'.unremove_expert name = Except.ok l ∧
      ∀ l2, l.remove_expert name false = Except.ok l2 →
        ∀ r, l2.unremove_expert name ≠ Except.ok r := by
  rcases Option.map_eq_some'.mp h with ⟨ent, hfind, _⟩
  have hany := any_liveNamed_of_get h
  obtain ⟨h1, h2, h3, h4⟩ := softDelete_props hnd hfind
  refine ⟨⟨softDeleteEntry l.data name⟩, ?_, ?_, ?_, ?_, ?_, ?_⟩
  · simp [ExpertLibrary.remove_expert, hany]
  · intro hmem
    rcases List.mem_map.mp hmem with ⟨b, hbf, hbn⟩
    have hbmem := List.mem_of_mem_filter hbf
    have hbdel : b.deleted = false := by
      have := List.of_mem_filter hbf
      simpa using this
    exact absurd (h1 b hbmem hbn) (by simp [hbdel])
  · have : (softDeleteEntry l.data name).find? (liveNamed name) = none := by
      rw [List.find?_eq_none]
      intro b hb hlb
      obtain ⟨hbn, hbd⟩ := liveNamed_eq_true.mp hlb
      exact absurd (h1 b hb hbn) (by simp [hbd])
    simp [ExpertLibrary.get, this]
  · simpa [ExpertLibrary.size, ExpertLibrary.listNames] using h4
  · have : (⟨l.data⟩ : ExpertLibrary) = l := rfl
    simp [ExpertLibrary.unremove_expert, h2, h3, this]
  · intro l2 hl2 r
    have hl2eq : l2 = ⟨hardDeleteEntry l.data name⟩ := by
      simp [ExpertLibrary.remove_expert, hany] at hl2
      exact hl2.symm
    have hnone : (hardDeleteEntry l.data name).any (fun e => e.name == name && e.deleted)
        = false := by
      rw [List.any_eq_false]
      intro b hb
      simp [hardDelete_no_named hnd hfind b hb]
    rw [hl2eq]
    simp [ExpertLibrary.unremove_expert, hnone]

/-- C8 witness: on the concrete two-expert library, soft-removing
`anatomy` hides it, unremoving restores the exact library, and a hard
remove is irreversible. -/
theorem C8_witness :
    ∃ l', C8lib.remove_expert ("anatomy") true = Except.ok l' ∧
      "anatomy" ∉ l'.listNames ∧
      l'.get ("anatomy") = none ∧
      l'.size + 1 = C8lib.size ∧
      l'.unremove_expert ("anatomy") = Except.ok C8lib ∧
      ∀ l2, C8lib.remove_expert ("anatomy") false = Except.ok l2 →
        ∀ r, l2.unremove_expert ("anatomy") ≠ Except.ok r :=
  C8_soft_delete_reversible_hard_not C8lib ("anatomy") C8e2 (by decide) rfl

/-- C10: the continuous weights are exactly the one-hot encoding of the
index vector, yet on a batch of two examples the einsum path returns 3 at
example 0 while the indexing path returns 2 — the `transpose(1, 2)` before
`reshape` in the indexing branch interleaves the batch and rank axes, so
the two routing paths of `SkilledLoRA.forward_linear_` disagree. -/
theorem C10_onehot_paths_diverge :
    Routing.onehot 2 1 1 C10idx C10dist ∧
    (C10m.forward_linear_ 2 C10input (Routing.dist C10dist)).1 0 0 0 = 3 ∧
    (C10m.forward_linear_ 2 C10input (Routing.index C10idx)).1 0 0 0 = 2 := by
  refine ⟨by unfold Routing.onehot; decide, ?_, ?_⟩ <;>
    norm_num [SkilledLoRA.forward_linear_, SkilledLoRA.scaling, reshape43,
      Ten4.transpose12, linearVal3, Mat.zero, C10m, C10input, C10dist, C10idx,
      Finset.sum_range_succ, Finset.sum_range_zero]
